/-
Verification of the showroom package: the DeepAgentsOllamaAdapter config
sanitization (src/showroom/ollama_adapter.py), the internet_search result
formatting (src/showroom/agent_deepagents.py), and the memory statistics
query (src/showroom/memory_utils.py), shallowly embedded in Lean 4.
-/
import Mathlib

set_option maxRecDepth 4000

/-- A Python value, as far as the sanitization logic distinguishes values:
`None`, lists, tuples, dicts (string keyed, insertion ordered), and
everything else (scalars/objects, represented by an opaque tag). -/
inductive PyVal where
  | none : PyVal
  | scalar : String → PyVal
  | list : List PyVal → PyVal
  | tuple : List PyVal → PyVal
  | dict : List (String × PyVal) → PyVal

/-- `x is None` in Python. -/
def PyVal.isNone : PyVal → Bool
  | .none => true
  | _ => false

/-- `isinstance(x, (list, tuple))` in Python. -/
def PyVal.isSequence : PyVal → Bool
  | .list _ => true
  | .tuple _ => true
  | _ => false

/-- `isinstance(x, dict)` in Python. -/
def PyVal.isDict : PyVal → Bool
  | .dict _ => true
  | _ => false

/-- A `RunnableConfig`: a Python dict with string keys, modelled as an
insertion-ordered association list. -/
abbrev Config := List (String × PyVal)

/-- Python dict lookup `c[k]` / `k in c`: `some v` when the key is present. -/
def lookup : Config → String → Option PyVal
  | [], _ => Option.none
  | (k', v) :: rest, k => if k' = k then some v else lookup rest k

/-- Python dict assignment `c[k] = v`: replaces the value at an existing key
in place, appends the pair at the end when the key is absent. -/
def setKey : Config → String → PyVal → Config
  | [], k, v => [(k, v)]
  | (k', v') :: rest, k, v =>
      if k' = k then (k, v) :: rest else (k', v') :: setKey rest k v

/-- Lines 107-117 of `_sanitize_config`: if an "overwrite" key exists and its
value is neither `None` nor a list/tuple, assign `None` to it. -/
def sanitizeOverwriteStep (sanitized : Config) : Config :=
  match lookup sanitized "overwrite" with
  | some overwrite =>
      if !overwrite.isNone && !overwrite.isSequence then
        setKey sanitized "overwrite" PyVal.none
      else sanitized
  | Option.none => sanitized

/-- Lines 119-123 of `_sanitize_config`: if a "configurable" key exists and its
value is neither `None` nor a dict, assign the empty dict to it. -/
def sanitizeConfigurableStep (sanitized : Config) : Config :=
  match lookup sanitized "configurable" with
  | some configurable =>
      if !configurable.isNone && !configurable.isDict then
        setKey sanitized "configurable" (PyVal.dict [])
      else sanitized
  | Option.none => sanitized

/-- `DeepAgentsOllamaAdapter._sanitize_config` (ollama_adapter.py, lines
89-125): `None` passes through; otherwise a copy of the dict is taken and the
"overwrite" rewrite runs before the "configurable" rewrite. -/
def _sanitize_config : Option Config → Option Config
  | Option.none => Option.none
  | some config => some (sanitizeConfigurableStep (sanitizeOverwriteStep config))

/-- The adapter's own state: the wrapped `ChatOllama` instance (abstract type
`μ`) and the model name. -/
structure DeepAgentsOllamaAdapter (μ : Type) where
  ollama_model : μ
  model_name : String

namespace DeepAgentsOllamaAdapter

/-- `DeepAgentsOllamaAdapter.invoke` (lines 196-219): sanitize the config,
then call the wrapped client's `invoke` on the unchanged input. The wrapped
client is abstract: `clientInvoke` stands for `ChatOllama.invoke`. -/
def invoke {α β μ : Type} (clientInvoke : μ → α → Option Config → β)
    (self : DeepAgentsOllamaAdapter μ) (input : α) (config : Option Config) : β :=
  clientInvoke self.ollama_model input (_sanitize_config config)

/-- `DeepAgentsOllamaAdapter.stream` (lines 221-230): sanitize the config,
then yield every chunk of the wrapped client's `stream` on the unchanged
input. The stream is modelled as the list of yielded chunks. -/
def stream {α γ μ : Type} (clientStream : μ → α → Option Config → List γ)
    (self : DeepAgentsOllamaAdapter μ) (input : α) (config : Option Config) : List γ :=
  clientStream self.ollama_model input (_sanitize_config config)

/-- `DeepAgentsOllamaAdapter.ainvoke` (lines 232-249): sanitize the config,
then await the wrapped client's `ainvoke` on the unchanged input; the async
call is modelled by its returned value. -/
def ainvoke {α β μ : Type} (clientAinvoke : μ → α → Option Config → β)
    (self : DeepAgentsOllamaAdapter μ) (input : α) (config : Option Config) : β :=
  clientAinvoke self.ollama_model input (_sanitize_config config)

/-- `DeepAgentsOllamaAdapter.with_config` (lines 281-299): sanitize the
config, build a new adapter holding the re-configured wrapped client and the
same model name. `clientWithConfig` stands for `ChatOllama.with_config`. -/
def with_config {μ : Type} (clientWithConfig : μ → Option Config → μ)
    (self : DeepAgentsOllamaAdapter μ) (config : Option Config) :
    DeepAgentsOllamaAdapter μ :=
  { ollama_model := clientWithConfig self.ollama_model (_sanitize_config config),
    model_name := self.model_name }

end DeepAgentsOllamaAdapter

/-- A Python `str`, modelled as its sequence of characters so that slicing
(`content[:2000]`) and `len` are `List.take` and `List.length`. -/
abbrev PyStr := List Char

/-- A Lean string literal as a `PyStr`. -/
def pys (s : String) : PyStr := s.toList

/-- One entry of the provider response's "results" list, as far as
`internet_search` reads it: `item.get("title", ...)`, `item.get("url", ...)`,
`item.get("content", ...)`; an absent key is `Option.none`. -/
structure SearchItem where
  title : Option PyStr
  url : Option PyStr
  content : Option PyStr

/-- Lines 76-84 of `internet_search` (agent_deepagents.py): defaults for the
three fields, truncation of content above 2000 characters with the
"... (truncated)" marker, and the `f"**{title}**\nURL: {url}\n{content}"`
block. -/
def formatItem (item : SearchItem) : PyStr :=
  let title := item.title.getD (pys "No Title")
  let url := item.url.getD (pys "")
  let content0 := item.content.getD (pys "")
  let content :=
    if 2000 < content0.length then content0.take 2000 ++ pys "... (truncated)"
    else content0
  pys "**" ++ title ++ pys "**\nURL: " ++ url ++ pys "\n" ++ content

/-- Lines 73-86 of `internet_search`: format every item of the provider
response's "results" list in order, join with `"\n\n---\n\n"`, and fall back
to `"No results found."` when the list is empty. The provider call itself
(Tavily HTTP) is external; this embeds the formatting of its response. -/
def internet_search (results : List SearchItem) : PyStr :=
  let blocks := results.map formatItem
  if blocks.isEmpty then pys "No results found."
  else List.intercalate (pys "\n\n---\n\n") blocks

/-- The torch environment `get_memory_stats` probes. `importable = false`
models `import torch` raising `ImportError`; each probed attribute is an
`Except`, where `Except.error msg` models the torch call raising an exception
whose `str` is `msg`. The `memory_*` figures are in bytes. -/
structure TorchEnv where
  importable : Bool
  cuda_is_available : Except String Bool
  memory_allocated : Except String Nat
  memory_reserved : Except String Nat
  max_memory_allocated : Except String Nat
  has_mps_backend : Bool
  mps_is_available : Except String Bool

/-- The dict `get_memory_stats` returns: the CUDA shape with the three
megabyte figures, the `{"backend": ..., "note": ...}` shape for the mps/cpu
branches, or the `{"error": str(e)}` shape from the exception handler. -/
inductive MemoryStats where
  | cuda (allocated_mb reserved_mb max_allocated_mb : ℚ) : MemoryStats
  | backendNote (backend note : String) : MemoryStats
  | error (msg : String) : MemoryStats

/-- Lines 69-85 of `get_memory_stats` (memory_utils.py): the body of the
`try` block after a successful `import torch`; any raising torch call aborts
it with the exception. -/
def memoryStatsBody (env : TorchEnv) : Except String MemoryStats := do
  let cudaAvailable ← env.cuda_is_available
  if cudaAvailable then
    let allocated ← env.memory_allocated
    let reserved ← env.memory_reserved
    let maxAllocated ← env.max_memory_allocated
    pure (.cuda ((allocated : ℚ) / 1024 / 1024) ((reserved : ℚ) / 1024 / 1024)
      ((maxAllocated : ℚ) / 1024 / 1024))
  else if env.has_mps_backend then
    let mpsAvailable ← env.mps_is_available
    if mpsAvailable then
      pure (.backendNote "mps" "MPS memory stats limited - Apple Silicon detected")
    else pure (.backendNote "cpu" "No GPU backend available")
  else pure (.backendNote "cpu" "No GPU backend available")

/-- `get_memory_stats` (memory_utils.py, lines 61-90): `except ImportError`
returns `None`; `except Exception as e` returns `{"error": str(e)}`; the
function itself never raises, which the total return type records. -/
def get_memory_stats (env : TorchEnv) : Option MemoryStats :=
  if env.importable then
    match memoryStatsBody env with
    | Except.ok stats => some stats
    | Except.error e => some (.error e)
  else Option.none

/-! ### Dict lemmas -/

theorem lookup_setKey_self (c : Config) (k : String) (v : PyVal) :
    lookup (setKey c k v) k = some v := by
  induction c with
  | nil => simp [setKey, lookup]
  | cons p rest ih =>
      obtain ⟨a, b⟩ := p
      by_cases ha : a = k
      · simp [setKey, lookup, ha]
      · simp [setKey, lookup, ha, ih]

theorem lookup_setKey_ne (c : Config) (k k' : String) (v : PyVal) (h : k' ≠ k) :
    lookup (setKey c k v) k' = lookup c k' := by
  induction c with
  | nil => simp [setKey, lookup, Ne.symm h]
  | cons p rest ih =>
      obtain ⟨a, b⟩ := p
      by_cases ha : a = k
      · subst ha
        simp [setKey, lookup, Ne.symm h]
      · simp [setKey, lookup, ha, ih]

theorem keys_setKey (c : Config) (k : String) (v : PyVal)
    (h : lookup c k ≠ Option.none) :
    (setKey c k v).map Prod.fst = c.map Prod.fst := by
  induction c with
  | nil => simp [lookup] at h
  | cons p rest ih =>
      obtain ⟨a, b⟩ := p
      by_cases ha : a = k
      · simp [setKey, ha]
      · simp only [lookup, if_neg ha] at h
        simp [setKey, ha, ih h]

/-! ### Characterization of the two sanitization steps -/

/-- The value the "overwrite" rewrite leaves at a present key. -/
def overwriteRewrite (ow : PyVal) : PyVal :=
  if !ow.isNone && !ow.isSequence then PyVal.none else ow

/-- The value the "configurable" rewrite leaves at a present key. -/
def configurableRewrite (cf : PyVal) : PyVal :=
  if !cf.isNone && !cf.isDict then PyVal.dict [] else cf

theorem lookup_sanitizeOverwriteStep (c : Config) :
    lookup (sanitizeOverwriteStep c) "overwrite" =
      (lookup c "overwrite").map overwriteRewrite := by
  cases hl : lookup c "overwrite" with
  | none => simp [sanitizeOverwriteStep, hl]
  | some ow =>
      cases hg : (!ow.isNone && !ow.isSequence) with
      | false => simp [sanitizeOverwriteStep, hl, hg, overwriteRewrite]
      | true => simp [sanitizeOverwriteStep, hl, hg, overwriteRewrite, lookup_setKey_self]

theorem lookup_sanitizeOverwriteStep_ne (c : Config) (k : String)
    (h : k ≠ "overwrite") :
    lookup (sanitizeOverwriteStep c) k = lookup c k := by
  cases hl : lookup c "overwrite" with
  | none => simp [sanitizeOverwriteStep, hl]
  | some ow =>
      cases hg : (!ow.isNone && !ow.isSequence) with
      | false => simp [sanitizeOverwriteStep, hl, hg]
      | true => simp [sanitizeOverwriteStep, hl, hg, lookup_setKey_ne _ _ _ _ h]

theorem keys_sanitizeOverwriteStep (c : Config) :
    (sanitizeOverwriteStep c).map Prod.fst = c.map Prod.fst := by
  cases hl : lookup c "overwrite" with
  | none => simp [sanitizeOverwriteStep, hl]
  | some ow =>
      cases hg : (!ow.isNone && !ow.isSequence) with
      | false => simp [sanitizeOverwriteStep, hl, hg]
      | true =>
          simp only [sanitizeOverwriteStep, hl, hg, if_pos]
          exact keys_setKey c "overwrite" PyVal.none (by simp [hl])

theorem lookup_sanitizeConfigurableStep (c : Config) :
    lookup (sanitizeConfigurableStep c) "configurable" =
      (lookup c "configurable").map configurableRewrite := by
  cases hl : lookup c "configurable" with
  | none => simp [sanitizeConfigurableStep, hl]
  | some cf =>
      cases hg : (!cf.isNone && !cf.isDict) with
      | false => simp [sanitizeConfigurableStep, hl, hg, configurableRewrite]
      | true =>
          simp [sanitizeConfigurableStep, hl, hg, configurableRewrite, lookup_setKey_self]

theorem lookup_sanitizeConfigurableStep_ne (c : Config) (k : String)
    (h : k ≠ "configurable") :
    lookup (sanitizeConfigurableStep c) k = lookup c k := by
  cases hl : lookup c "configurable" with
  | none => simp [sanitizeConfigurableStep, hl]
  | some cf =>
      cases hg : (!cf.isNone && !cf.isDict) with
      | false => simp [sanitizeConfigurableStep, hl, hg]
      | true => simp [sanitizeConfigurableStep, hl, hg, lookup_setKey_ne _ _ _ _ h]

theorem keys_sanitizeConfigurableStep (c : Config) :
    (sanitizeConfigurableStep c).map Prod.fst = c.map Prod.fst := by
  cases hl : lookup c "configurable" with
  | none => simp [sanitizeConfigurableStep, hl]
  | some cf =>
      cases hg : (!cf.isNone && !cf.isDict) with
      | false => simp [sanitizeConfigurableStep, hl, hg]
      | true =>
          simp only [sanitizeConfigurableStep, hl, hg, if_pos]
          exact keys_setKey c "configurable" (PyVal.dict []) (by simp [hl])

theorem sanitizeOverwriteStep_eq_self (c : Config)
    (h : ∀ ow, lookup c "overwrite" = some ow → (!ow.isNone && !ow.isSequence) = false) :
    sanitizeOverwriteStep c = c := by
  cases hl : lookup c "overwrite" with
  | none => simp [sanitizeOverwriteStep, hl]
  | some ow => simp [sanitizeOverwriteStep, hl, h ow hl]

theorem sanitizeConfigurableStep_eq_self (c : Config)
    (h : ∀ cf, lookup c "configurable" = some cf → (!cf.isNone && !cf.isDict) = false) :
    sanitizeConfigurableStep c = c := by
  cases hl : lookup c "configurable" with
  | none => simp [sanitizeConfigurableStep, hl]
  | some cf => simp [sanitizeConfigurableStep, hl, h cf hl]

theorem overwriteRewrite_safe (ow : PyVal) :
    (!(overwriteRewrite ow).isNone && !(overwriteRewrite ow).isSequence) = false := by
  cases ow <;> rfl

theorem configurableRewrite_safe (cf : PyVal) :
    (!(configurableRewrite cf).isNone && !(configurableRewrite cf).isDict) = false := by
  cases cf <;> rfl

/-! ### Join lemmas for the search output -/

theorem intercalate_cons_cons {α : Type} (sep a b : List α) (t : List (List α)) :
    List.intercalate sep (a :: b :: t) = a ++ sep ++ List.intercalate sep (b :: t) := by
  simp [List.intercalate, List.intersperse, List.append_assoc]

theorem exists_around_intercalate {α β : Type} (sep : List α) (f : β → List α) :
    ∀ (xs : List β) (x : β), x ∈ xs →
      ∃ l r, List.intercalate sep (xs.map f) = l ++ (f x ++ r) := by
  intro xs
  induction xs with
  | nil => intro x hx; exact absurd hx (List.not_mem_nil x)
  | cons hd t ih =>
      intro x hx
      rcases List.mem_cons.mp hx with h | h
      · subst h
        cases t with
        | nil => exact ⟨[], [], by simp [List.intercalate]⟩
        | cons b t2 =>
            refine ⟨[], sep ++ List.intercalate sep ((b :: t2).map f), ?_⟩
            simp [intercalate_cons_cons, List.append_assoc]
      · cases t with
        | nil => exact absurd h (List.not_mem_nil x)
        | cons b t2 =>
            obtain ⟨l, r, hir⟩ := ih x h
            refine ⟨f hd ++ sep ++ l, r, ?_⟩
            simp only [List.map_cons] at hir ⊢
            rw [intercalate_cons_cons, hir]
            simp [List.append_assoc]

/-! ### Claims -/

/-- C1: for every invocation configuration in which "overwrite" is present
with a scalar value (neither `None` nor a list/tuple), the sanitized
configuration has "overwrite" emptied to `None`; the original scalar never
appears there. -/
theorem sanitize_overwrite_scalar_dropped (c : Config) (v : PyVal)
    (hpresent : lookup c "overwrite" = some v)
    (hnotnone : v.isNone = false) (hnotseq : v.isSequence = false) :
    ∃ c', _sanitize_config (some c) = some c' ∧
      lookup c' "overwrite" = some PyVal.none ∧
      lookup c' "overwrite" ≠ some v := by
  have h1 : lookup (sanitizeConfigurableStep (sanitizeOverwriteStep c)) "overwrite" =
      some PyVal.none := by
    rw [lookup_sanitizeConfigurableStep_ne _ _ (by decide),
      lookup_sanitizeOverwriteStep, hpresent]
    simp [overwriteRewrite, hnotnone, hnotseq]
  refine ⟨_, rfl, h1, ?_⟩
  rw [h1]
  intro heq
  injection heq with hv
  rw [← hv] at hnotnone
  simp [PyVal.isNone] at hnotnone

/-- C1 witness: the concrete config `{"overwrite": <scalar>}`. -/
theorem sanitize_overwrite_scalar_dropped_witness :
    lookup [("overwrite", PyVal.scalar "cfg")] "overwrite" = some (PyVal.scalar "cfg") ∧
    (PyVal.scalar "cfg").isNone = false ∧ (PyVal.scalar "cfg").isSequence = false ∧
    ∃ c', _sanitize_config (some [("overwrite", PyVal.scalar "cfg")]) = some c' ∧
      lookup c' "overwrite" = some PyVal.none ∧
      lookup c' "overwrite" ≠ some (PyVal.scalar "cfg") :=
  ⟨rfl, rfl, rfl, sanitize_overwrite_scalar_dropped _ _ rfl rfl rfl⟩

/-- C2 counterexample: the claim says a non-mapping "configurable" value —
including `None` — is replaced by the empty mapping, but sanitizing
`{"configurable": None}` leaves the value `None`, which is not the empty
dict: line 122 of ollama_adapter.py skips the rewrite when the value is
`None`. -/
theorem sanitize_configurable_none_cex :
    _sanitize_config (some [("configurable", PyVal.none)]) =
      some [("configurable", PyVal.none)] ∧
    PyVal.none ≠ PyVal.dict [] :=
  ⟨rfl, fun h => PyVal.noConfusion h⟩

/-- C2 (amended): when "configurable" is present with a value that is neither
`None` nor a mapping, sanitization replaces it with the empty mapping; a
`None` value and a mapping value are left unchanged (a mapping keeps its key
set and values). -/
theorem sanitize_configurable_rewrite (c : Config) (v : PyVal)
    (hpresent : lookup c "configurable" = some v) :
    ∃ c', _sanitize_config (some c) = some c' ∧
      lookup c' "configurable" =
        some (if v.isNone || v.isDict then v else PyVal.dict []) := by
  refine ⟨_, rfl, ?_⟩
  rw [lookup_sanitizeConfigurableStep,
    lookup_sanitizeOverwriteStep_ne _ _ (by decide), hpresent]
  cases hn : v.isNone <;> cases hd : v.isDict <;>
    simp [configurableRewrite, hn, hd]

/-- C2 witness: the concrete config `{"configurable": <scalar>}`. -/
theorem sanitize_configurable_rewrite_witness :
    lookup [("configurable", PyVal.scalar "x")] "configurable" =
      some (PyVal.scalar "x") ∧
    ∃ c', _sanitize_config (some [("configurable", PyVal.scalar "x")]) = some c' ∧
      lookup c' "configurable" =
        some (if (PyVal.scalar "x").isNone || (PyVal.scalar "x").isDict then
          PyVal.scalar "x" else PyVal.dict []) :=
  ⟨rfl, sanitize_configurable_rewrite _ _ rfl⟩

/-- C3: every config-accepting entry point of the adapter — `invoke`,
`stream`, `ainvoke`, `with_config` — passes the configuration through
`_sanitize_config`, forwards the input verbatim to the wrapped client's
equivalent entry point, and returns the wrapped client's result unchanged
(`with_config` wraps the re-configured client in a new adapter with the same
model name). -/
theorem adapter_delegation {α β γ μ : Type}
    (clientInvoke : μ → α → Option Config → β)
    (clientStream : μ → α → Option Config → List γ)
    (clientAinvoke : μ → α → Option Config → β)
    (clientWithConfig : μ → Option Config → μ)
    (self : DeepAgentsOllamaAdapter μ) (input : α) (config : Option Config) :
    DeepAgentsOllamaAdapter.invoke clientInvoke self input config =
        clientInvoke self.ollama_model input (_sanitize_config config) ∧
    DeepAgentsOllamaAdapter.stream clientStream self input config =
        clientStream self.ollama_model input (_sanitize_config config) ∧
    DeepAgentsOllamaAdapter.ainvoke clientAinvoke self input config =
        clientAinvoke self.ollama_model input (_sanitize_config config) ∧
    DeepAgentsOllamaAdapter.with_config clientWithConfig self config =
        { ollama_model := clientWithConfig self.ollama_model (_sanitize_config config),
          model_name := self.model_name } :=
  ⟨rfl, rfl, rfl, rfl⟩

/-- C4: when "overwrite" is present with a list or tuple value (including the
empty one), sanitization leaves that value unchanged. -/
theorem sanitize_overwrite_sequence_unchanged (c : Config) (v : PyVal)
    (hpresent : lookup c "overwrite" = some v) (hseq : v.isSequence = true) :
    ∃ c', _sanitize_config (some c) = some c' ∧ lookup c' "overwrite" = some v := by
  refine ⟨_, rfl, ?_⟩
  rw [lookup_sanitizeConfigurableStep_ne _ _ (by decide),
    lookup_sanitizeOverwriteStep, hpresent]
  simp [overwriteRewrite, hseq]

/-- C4 witness: the concrete config `{"overwrite": []}`. -/
theorem sanitize_overwrite_sequence_unchanged_witness :
    lookup [("overwrite", PyVal.list [])] "overwrite" = some (PyVal.list []) ∧
    (PyVal.list []).isSequence = true ∧
    ∃ c', _sanitize_config (some [("overwrite", PyVal.list [])]) = some c' ∧
      lookup c' "overwrite" = some (PyVal.list []) :=
  ⟨rfl, rfl, sanitize_overwrite_sequence_unchanged _ _ rfl rfl⟩

/-- C5: for every non-absent configuration, sanitization builds a fresh dict
(the input, a value, is never mutated) whose key set equals the input's key
set — "overwrite" and "configurable" included, neither added nor deleted —
and whose value at every key other than "overwrite" and "configurable"
equals the input's value there. -/
theorem sanitize_config_frame (c : Config) :
    ∃ c', _sanitize_config (some c) = some c' ∧
      c'.map Prod.fst = c.map Prod.fst ∧
      ∀ k, k ≠ "overwrite" → k ≠ "configurable" → lookup c' k = lookup c k := by
  refine ⟨_, rfl, ?_, ?_⟩
  · rw [keys_sanitizeConfigurableStep, keys_sanitizeOverwriteStep]
  · intro k h1 h2
    rw [lookup_sanitizeConfigurableStep_ne _ _ h2,
      lookup_sanitizeOverwriteStep_ne _ _ h1]

/-- C6: sanitizing the absent configuration returns the absent value itself,
not an empty mapping or any other non-absent structure. -/
theorem sanitize_absent_config :
    _sanitize_config Option.none = Option.none ∧
    _sanitize_config Option.none ≠ some [] :=
  ⟨rfl, fun h => Option.noConfusion h⟩

/-- C7: for every item of the provider response whose content is longer than
2000 characters, the search output contains that item's block, whose content
part is exactly the first 2000 characters followed by the "... (truncated)"
marker; content of 2000 characters or fewer appears unmodified. -/
theorem internet_search_truncation (results : List SearchItem) (item : SearchItem)
    (s : PyStr) (hmem : item ∈ results) (hcontent : item.content = some s) :
    ∃ l r, internet_search results = l ++ (formatItem item ++ r) ∧
      formatItem item =
        (pys "**" ++ item.title.getD (pys "No Title") ++ pys "**\nURL: " ++
          item.url.getD (pys "") ++ pys "\n") ++
        (if 2000 < s.length then s.take 2000 ++ pys "... (truncated)" else s) ∧
      (2000 < s.length → (s.take 2000).length = 2000) := by
  obtain ⟨l, r, hlr⟩ :=
    exists_around_intercalate (pys "\n\n---\n\n") formatItem results item hmem
  have hne : internet_search results =
      List.intercalate (pys "\n\n---\n\n") (results.map formatItem) := by
    cases results with
    | nil => exact absurd hmem (List.not_mem_nil item)
    | cons a t => simp [internet_search]
  refine ⟨l, r, by rw [hne, hlr], ?_, ?_⟩
  · simp only [formatItem, hcontent, Option.getD_some]
  · intro h
    rw [List.length_take]
    exact Nat.min_eq_left h.le

/-- C7 witness input: one result item whose content is 2001 characters. -/
def longItem : SearchItem :=
  { title := Option.none, url := Option.none,
    content := some (List.replicate 2001 'a') }

/-- C7 witness: the single-item response with 2001-character content. -/
theorem internet_search_truncation_witness :
    longItem ∈ [longItem] ∧
    longItem.content = some (List.replicate 2001 'a') ∧
    ∃ l r, internet_search [longItem] = l ++ (formatItem longItem ++ r) ∧
      formatItem longItem =
        (pys "**" ++ longItem.title.getD (pys "No Title") ++ pys "**\nURL: " ++
          longItem.url.getD (pys "") ++ pys "\n") ++
        (if 2000 < (List.replicate 2001 'a').length then
          (List.replicate 2001 'a').take 2000 ++ pys "... (truncated)"
        else List.replicate 2001 'a') ∧
      (2000 < (List.replicate 2001 'a').length →
        ((List.replicate 2001 'a').take 2000).length = 2000) :=
  ⟨List.mem_singleton.mpr rfl, rfl,
    internet_search_truncation [longItem] longItem (List.replicate 2001 'a')
      (List.mem_singleton.mpr rfl) rfl⟩

/-- C8: a provider response with zero items yields the fixed
"No results found." sentinel, never the empty string; a response with one or
more items yields one formatted block per item, in provider order, joined by
the "\n\n---\n\n" separator. -/
theorem internet_search_blocks (results : List SearchItem) :
    (results = [] → internet_search results = pys "No results found." ∧
      internet_search results ≠ pys "") ∧
    (results ≠ [] →
      internet_search results =
        List.intercalate (pys "\n\n---\n\n") (results.map formatItem) ∧
      (results.map formatItem).length = results.length) := by
  constructor
  · rintro rfl
    refine ⟨rfl, ?_⟩
    intro h
    exact absurd h (by decide)
  · intro h
    refine ⟨?_, by simp⟩
    cases results with
    | nil => exact absurd rfl h
    | cons a t => simp [internet_search]

/-- C9: `get_memory_stats` never raises: an unimportable torch yields the
absent value `None`, and an exception raised inside the torch probes is
caught and returned as the `{"error": str(e)}` mapping instead of
propagating. -/
theorem get_memory_stats_never_raises (env : TorchEnv) :
    (env.importable = false → get_memory_stats env = Option.none) ∧
    (∀ msg, env.importable = true → memoryStatsBody env = Except.error msg →
      get_memory_stats env = some (MemoryStats.error msg)) := by
  constructor
  · intro h
    simp [get_memory_stats, h]
  · intro msg h1 h2
    simp [get_memory_stats, h1, h2]

/-- C10: the adapter's sanitization is idempotent: a second application
returns the first application's output unchanged, for the absent
configuration as well as every dict. -/
theorem sanitize_config_idempotent (config : Option Config) :
    _sanitize_config (_sanitize_config config) = _sanitize_config config := by
  cases config with
  | none => rfl
  | some c =>
      show some (sanitizeConfigurableStep (sanitizeOverwriteStep
          (sanitizeConfigurableStep (sanitizeOverwriteStep c)))) =
        some (sanitizeConfigurableStep (sanitizeOverwriteStep c))
      have how : sanitizeOverwriteStep
          (sanitizeConfigurableStep (sanitizeOverwriteStep c)) =
          sanitizeConfigurableStep (sanitizeOverwriteStep c) := by
        apply sanitizeOverwriteStep_eq_self
        intro ow hw
        rw [lookup_sanitizeConfigurableStep_ne _ _ (by decide),
          lookup_sanitizeOverwriteStep] at hw
        obtain ⟨w, _, hw2⟩ := Option.map_eq_some'.mp hw
        rw [← hw2]
        exact overwriteRewrite_safe w
      have hcf : sanitizeConfigurableStep
          (sanitizeConfigurableStep (sanitizeOverwriteStep c)) =
          sanitizeConfigurableStep (sanitizeOverwriteStep c) := by
        apply sanitizeConfigurableStep_eq_self
        intro cf hw
        rw [lookup_sanitizeConfigurableStep] at hw
        obtain ⟨w, _, hw2⟩ := Option.map_eq_some'.mp hw
        rw [← hw2]
        exact configurableRewrite_safe w
      rw [how, hcf]
